import Mathlib

/-!
# Verification of the measurement question generators

A shallow embedding of `mathematics_dataset/modules/measurement.py` (the unit
conversion and time arithmetic question generators) together with proofs of
the behavioural properties stated about it.

Randomness is made explicit: every `random.*` draw of the Python code becomes
a parameter (a single draw) or a stream `ℕ → α` of draws (for the
`while True:` rejection-sampling loops, which become a fuel-indexed search for
the first accepted draw).  Exact rational arithmetic (`sympy.Rational`)
becomes `ℚ`.
-/

namespace measurement

/-- `Unit = collections.namedtuple("Unit", ("name", "symbol"))`
(measurement.py line 65). -/
structure Unit where
  name : String
  symbol : Option String
deriving DecidableEq, Repr

/-- `MICRO_SYMBOL = "u"` (line 68). -/
def MICRO_SYMBOL : String := "u"

/-- The `LENGTH` dimension (lines 71-78): units paired with their scale
relative to the canonical unit.  `sympy.Rational(1, 1e6)` is exactly
`1/1000000`. -/
def LENGTH : List (Unit × ℚ) :=
  [(⟨"meter", some "m"⟩, 1),
   (⟨"kilometer", some "km"⟩, 1000),
   (⟨"centimeter", some "cm"⟩, 1/100),
   (⟨"millimeter", some "mm"⟩, 1/1000),
   (⟨"mikrometer", some ("u" ++ "m")⟩, 1/1000000),
   (⟨"nanometer", some "nm"⟩, 1/1000000000)]

/-- The `TIME` dimension (lines 80-89). -/
def TIME : List (Unit × ℚ) :=
  [(⟨"sekund", some "s"⟩, 1),
   (⟨"minut", none⟩, 60),
   (⟨"time", none⟩, 60 * 60),
   (⟨"dag", none⟩, 24 * 60 * 60),
   (⟨"uge", none⟩, 7 * 24 * 60 * 60),
   (⟨"millisekund", some "ms"⟩, 1/1000),
   (⟨"mikrosekund", some (MICRO_SYMBOL ++ "s")⟩, 1/1000000),
   (⟨"nanosekund", some "ns"⟩, 1/1000000000)]

/-- The `TIME_YEARLY` dimension (lines 91-97). -/
def TIME_YEARLY : List (Unit × ℚ) :=
  [(⟨"år", none⟩, 1),
   (⟨"årti", none⟩, 10),
   (⟨"århundrede", none⟩, 100),
   (⟨"årtusinde", none⟩, 1000),
   (⟨"måned", none⟩, 1/12)]

/-- The `MASS` dimension (lines 99-106). -/
def MASS : List (Unit × ℚ) :=
  [(⟨"kilogram", some "kg"⟩, 1),
   (⟨"ton", some "t"⟩, 1000),
   (⟨"gram", some "g"⟩, 1/1000),
   (⟨"milligram", some "mg"⟩, 1/1000000),
   (⟨"mikrogram", some (MICRO_SYMBOL ++ "g")⟩, 1/1000000000),
   (⟨"nanogram", some "ng"⟩, 1/1000000000000)]

/-- The `VOLUME` dimension (lines 108-111). -/
def VOLUME : List (Unit × ℚ) :=
  [(⟨"liter", some "l"⟩, 1),
   (⟨"milliliter", some "ml"⟩, 1/1000)]

/-- `DIMENSIONS = [LENGTH, TIME, TIME_YEARLY, MASS, VOLUME]` (line 114). -/
def DIMENSIONS : List (List (Unit × ℚ)) :=
  [LENGTH, TIME, TIME_YEARLY, MASS, VOLUME]

/-- `_factor_non_decimal` (lines 137-144): the product of the prime-power
factors of `value` whose prime is neither 2 nor 5.  The Python code iterates
over `sympy.factorint(value)` multiplying `factor ** power` for every kept
prime; here we take the product of the prime factor list (with multiplicity)
with the factors 2 and 5 dropped, which is the same number. -/
def factor_non_decimal (value : ℕ) : ℕ :=
  ((Nat.primeFactorsList value).filter fun factor => !(factor == 2 || factor == 5)).prod

/-- Modelled from the spec: `train_test_split.is_train` is not among the
sources under verification, only its call sites in `measurement.py` are.
Spec §4.2 requires a pure deterministic function of the value's canonical
exact representation (numerator, denominator), derived from a stable hash,
mapping every value to one of the two sides.  We model the stable hash of the
canonical representation as the sum of the numerator's absolute value and the
denominator, and take its parity as the side. -/
def is_train (value : ℚ) : Bool :=
  (value.num.natAbs + value.den) % 2 == 0

/-- Modelled from the spec: `number.non_integer_decimal` (spec §4.1) is not
among the sources under verification.  It draws a `digits`-digit decimal
value, i.e. an integer mantissa scaled by a power of ten; the draws become
the explicit parameters `mantissa` and `digits`. -/
def non_integer_decimal (mantissa : ℤ) (digits : ℕ) : ℚ :=
  mantissa / 10 ^ digits

/-- `_sample_conversion_decimal` (lines 147-156) with the random draws made
explicit: `base_scale` and `target_scale` are the scales of the two sampled
units, `mantissa`/`digits` the draw of `number.non_integer_decimal`.  Returns
`(base_value, target_value)`. -/
def sample_conversion_decimal (base_scale target_scale : ℚ)
    (mantissa : ℤ) (digits : ℕ) : ℚ × ℚ :=
  let scale : ℚ := base_scale / target_scale
  let scale_non_decimal : ℕ := factor_non_decimal scale.den
  let base_value : ℚ := non_integer_decimal mantissa digits * scale_non_decimal
  let target_value : ℚ := base_value * scale
  (base_value, target_value)

/-- A `while True:` rejection-sampling loop, fuel-indexed: the first draw of
the stream `s` accepted by `guard` among the first `fuel` draws, `none` when
every one of them is rejected (the loop is still running).  The source loops
(lines 162-167, 205-220, 260-263) carry no retry bound; the fuel is an
observation depth, not part of the code. -/
def while_true_loop {α : Type} (guard : α → Bool) (s : ℕ → α) : ℕ → Option α
  | 0 => none
  | fuel + 1 =>
    if guard (s 0) then some (s 0)
    else while_true_loop guard (fun k => s (k + 1)) fuel

/-- Acceptance test of the retry loop in `_conversion_decimal`
(line 166): `train_test_split.is_train(base_value) == is_train`. -/
def conversion_decimal_guard (side : Bool) (base_value : ℚ) : Bool :=
  is_train base_value == side

theorem while_true_loop_guard {α : Type} (guard : α → Bool) :
    ∀ (fuel : ℕ) (s : ℕ → α) (v : α),
      while_true_loop guard s fuel = some v → guard v = true := by
  intro fuel
  induction fuel with
  | zero => intro s v h; simp [while_true_loop] at h
  | succ n ih =>
      intro s v h
      rw [while_true_loop] at h
      by_cases hg : guard (s 0)
      · simp [hg] at h
        exact h ▸ hg
      · simp [hg] at h
        exact ih _ _ h

theorem while_true_loop_none {α : Type} (guard : α → Bool) :
    ∀ (fuel : ℕ) (s : ℕ → α), (∀ k, guard (s k) = false) →
      while_true_loop guard s fuel = none := by
  intro fuel
  induction fuel with
  | zero => intro s _; rfl
  | succ n ih =>
      intro s h
      rw [while_true_loop]
      simp [h 0]
      exact ih _ fun k => h (k + 1)

/-- One draw of the retry loop body of `_conversion_fraction`
(lines 205-220): the scales of the two sampled units and the sampled
non-integer rational base value. -/
structure FractionDraw where
  base_scale : ℚ
  target_scale : ℚ
  base_value : ℚ
deriving DecidableEq

/-- The candidate answer of `_conversion_fraction` (lines 210-214):
`base_value * Rational(dimension[base_unit]) / Rational(dimension[target_unit])`. -/
def fraction_answer (draw : FractionDraw) : ℚ :=
  draw.base_value * draw.base_scale / draw.target_scale

/-- Acceptance test of the retry loop in `_conversion_fraction`
(lines 208-220): the side check `is_train(base_value) != is_train` rejects
with `continue`, then the answer must satisfy
`abs(answer) <= 100000 and sympy.denom(answer) == 1 and (allow_zero or answer != 0)`. -/
def conversion_fraction_guard (side allow_zero : Bool) (draw : FractionDraw) : Bool :=
  (is_train draw.base_value == side) &&
    decide (|fraction_answer draw| ≤ 100000) &&
    ((fraction_answer draw).den == 1) &&
    (allow_zero || !(fraction_answer draw == 0))

/-- Lines 229-232 of `_conversion_fraction`: how the base value is rendered. -/
inductive BaseValueStyle
  | digits
  | words
deriving DecidableEq, Repr

/-- `if sympy.denom(base_value) > 20 or random.choice([False, True]):` render
the raw value (digits, e.g. `2/3`) `else` render `display.StringNumber`
(spelled-out words, e.g. `two thirds`) — lines 229-232, with the uniform coin
of `random.choice([False, True])` made the explicit parameter `coin`. -/
def fraction_base_style (den : ℕ) (coin : Bool) : BaseValueStyle :=
  if 20 < den || coin then BaseValueStyle.digits else BaseValueStyle.words

/-- The two forms a `conversion` question can take (lines 244-253). -/
inductive ConversionForm
  | decimal
  | fraction
deriving DecidableEq, Repr

/-- `conversion` (lines 244-253): `if is_extrapolation or random.choice([False,
True]):` produce the decimal form, `else` the fraction form; the uniform coin
becomes the explicit parameter `coin`. -/
def conversion (is_extrapolation coin : Bool) : ConversionForm :=
  if is_extrapolation || coin then ConversionForm.decimal else ConversionForm.fraction

/-- Line 152 of `_sample_conversion_decimal`:
`entropy = 9 if is_extrapolation else 7`. -/
def sample_conversion_entropy (is_extrapolation : Bool) : ℕ :=
  if is_extrapolation then 9 else 7

/-- `test_extra` (lines 56-62): the names of the extrapolation testing
modules.  The dictionary holds the single key `"conversion"`, bound to
`conversion` with `is_train=False, is_extrapolation=True`. -/
def test_extra : List String := ["conversion"]

/-- `_make_modules` (lines 35-42): the names of the interpolation modules. -/
def make_modules : List String := ["conversion", "time"]

/-- Acceptance test of the retry loop in `time` (lines 260-263):
`train_test_split.is_train(duration_minutes) == is_train`. -/
def time_guard (side : Bool) (duration_minutes : ℕ) : Bool :=
  is_train (duration_minutes : ℚ) == side

/-- Zero-padded two-digit rendering, Python's `"{:02}".format`. -/
def pad2 (n : ℕ) : String :=
  if n < 10 then "0" ++ toString n else toString n

/-- `format_24hr` (lines 266-270): `hours = (minutes // 60) % 24`,
`minutes %= 60`, rendered `"{:02}:{:02}"`. -/
def format_24hr (minutes : ℕ) : String :=
  pad2 ((minutes / 60) % 24) ++ ":" ++ pad2 (minutes % 60)

/-- The Problem built by `time` (lines 256-312), with the underlying minute
quantities kept alongside the rendered strings. -/
structure TimeProblem where
  start_minutes : ℕ
  duration_minutes : ℕ
  end_minutes : ℕ
  question : String
  answer : String
deriving DecidableEq, Repr

/-- `which_question = random.randint(0, 3)` draws an integer from the
inclusive range {0, 1, 2, 3}; lines 276, 289 and 302 map it onto the three
question forms: `0` solves for the start, `1` for the end, every other value
falls to the `else` branch solving for the duration. -/
def which_question_branch (which_question : Fin 4) : Fin 3 :=
  if which_question.val = 0 then 0 else if which_question.val = 1 then 1 else 2

/-- `time` (lines 256-312) with the random draws made explicit:
`start_minutes` (from `random.randint(1, 24 * 60 - 1)`), `duration_minutes`
(the accepted draw of the retry loop over `random.randint(1, 12 * 60 - 1)`)
and `which_question` (from `random.randint(0, 3)`, inclusive). -/
def time (start_minutes duration_minutes : ℕ) (which_question : Fin 4) :
    TimeProblem :=
  let end_minutes := start_minutes + duration_minutes
  let start := format_24hr start_minutes
  let finish := format_24hr end_minutes
  if which_question.val = 0 then
    { start_minutes := start_minutes, duration_minutes := duration_minutes,
      end_minutes := end_minutes,
      question := "Hvad er " ++ toString duration_minutes ++ " minutter før "
        ++ finish ++ "?",
      answer := start }
  else if which_question.val = 1 then
    { start_minutes := start_minutes, duration_minutes := duration_minutes,
      end_minutes := end_minutes,
      question := "Hvad er " ++ toString duration_minutes ++ " minutter efter "
        ++ start ++ "?",
      answer := finish }
  else
    { start_minutes := start_minutes, duration_minutes := duration_minutes,
      end_minutes := end_minutes,
      question := "Hvor mange minutter er der mellem " ++ start ++ " og "
        ++ finish ++ "?",
      answer := toString duration_minutes }

/-! ### Arithmetic facts about `_factor_non_decimal` -/

theorem filter_prod_mul_compl (p : ℕ → Bool) (l : List ℕ) :
    (l.filter p).prod * (l.filter fun x => !p x).prod = l.prod := by
  rw [← List.prod_append]
  exact List.Perm.prod_eq (List.filter_append_perm p l)

theorem coprime_list_prod {d : ℕ} :
    ∀ {l : List ℕ}, (∀ x ∈ l, Nat.Coprime d x) → Nat.Coprime d l.prod
  | [], _ => by simp
  | a :: t, h => by
      rw [List.prod_cons]
      exact Nat.Coprime.mul_right (h a (List.mem_cons_self a t))
        (coprime_list_prod fun x hx => h x (List.mem_cons_of_mem a hx))

theorem list_prod_dvd_pow {m : ℕ} :
    ∀ {l : List ℕ}, (∀ x ∈ l, x ∣ m) → l.prod ∣ m ^ l.length
  | [], _ => by simp
  | a :: t, h => by
      rw [List.prod_cons, List.length_cons, pow_succ']
      exact mul_dvd_mul (h a (List.mem_cons_self a t))
        (list_prod_dvd_pow fun x hx => h x (List.mem_cons_of_mem a hx))

theorem factor_non_decimal_dvd {n : ℕ} (hn : n ≠ 0) : factor_non_decimal n ∣ n :=
  ⟨((Nat.primeFactorsList n).filter
      fun x => !(!(x == 2 || x == 5))).prod,
    by
      rw [factor_non_decimal,
        filter_prod_mul_compl (fun factor => !(factor == 2 || factor == 5))
          (Nat.primeFactorsList n), Nat.prod_primeFactorsList hn]⟩

theorem factor_non_decimal_coprime (n : ℕ) :
    Nat.Coprime (factor_non_decimal n) 2 ∧ Nat.Coprime (factor_non_decimal n) 5 := by
  constructor <;>
  · refine Nat.Coprime.symm (coprime_list_prod ?_)
    intro x hx
    rcases List.mem_filter.mp hx with ⟨hxl, hxcond⟩
    have hxp : Nat.Prime x := Nat.prime_of_mem_primeFactorsList hxl
    have hx25 : ¬(x = 2 ∨ x = 5) := by simpa using hxcond
    push_neg at hx25
    first
    | exact (Nat.coprime_primes Nat.prime_two hxp).mpr (Ne.symm hx25.1)
    | exact (Nat.coprime_primes (by norm_num) hxp).mpr (Ne.symm hx25.2)

theorem dvd_factor_non_decimal {n d : ℕ} (hn : n ≠ 0) (hdn : d ∣ n)
    (h2 : Nat.Coprime d 2) (h5 : Nat.Coprime d 5) : d ∣ factor_non_decimal n := by
  have key := filter_prod_mul_compl (fun factor => !(factor == 2 || factor == 5))
    (Nat.primeFactorsList n)
  rw [Nat.prod_primeFactorsList hn] at key
  rw [← key] at hdn
  refine Nat.Coprime.dvd_of_dvd_mul_right ?_ hdn
  apply coprime_list_prod
  intro x hx
  rcases List.mem_filter.mp hx with ⟨hxl, hxcond⟩
  have hx25 : x = 2 ∨ x = 5 := by simpa using hxcond
  rcases hx25 with rfl | rfl
  · exact h2
  · exact h5

theorem factor_non_decimal_pos {n : ℕ} (hn : n ≠ 0) : 0 < factor_non_decimal n :=
  Nat.pos_of_dvd_of_pos (factor_non_decimal_dvd hn) (Nat.pos_of_ne_zero hn)

/-- The dropped factors of `n` (its powers of 2 and 5) divide a power of
ten. -/
theorem compl_prod_dvd_pow_ten (n : ℕ) :
    ((Nat.primeFactorsList n).filter fun x => !(!(x == 2 || x == 5))).prod ∣
      10 ^ ((Nat.primeFactorsList n).filter fun x => !(!(x == 2 || x == 5))).length := by
  apply list_prod_dvd_pow
  intro x hx
  rcases List.mem_filter.mp hx with ⟨hxl, hxcond⟩
  have hx25 : x = 2 ∨ x = 5 := by simpa using hxcond
  rcases hx25 with rfl | rfl
  · exact ⟨5, rfl⟩
  · exact ⟨2, rfl⟩

/-- Multiplying `_factor_non_decimal n` by a suitable power of ten yields a
multiple of `n`: the factors of `n` it drops are only powers of 2 and 5. -/
theorem factor_non_decimal_clears {n : ℕ} (hn : n ≠ 0) :
    ∃ (len t : ℕ), factor_non_decimal n * 10 ^ len = n * t := by
  obtain ⟨t, ht⟩ := compl_prod_dvd_pow_ten n
  refine ⟨((Nat.primeFactorsList n).filter fun x => !(!(x == 2 || x == 5))).length, t, ?_⟩
  have key : factor_non_decimal n *
      ((Nat.primeFactorsList n).filter fun x => !(!(x == 2 || x == 5))).prod = n := by
    have h := filter_prod_mul_compl (fun factor => !(factor == 2 || factor == 5))
      (Nat.primeFactorsList n)
    rw [Nat.prod_primeFactorsList hn] at h
    exact h
  calc factor_non_decimal n *
        10 ^ ((Nat.primeFactorsList n).filter fun x => !(!(x == 2 || x == 5))).length
      = factor_non_decimal n *
        (((Nat.primeFactorsList n).filter fun x => !(!(x == 2 || x == 5))).prod * t) := by
        rw [ht]
    _ = factor_non_decimal n *
        ((Nat.primeFactorsList n).filter fun x => !(!(x == 2 || x == 5))).prod * t := by
        ring
    _ = n * t := by rw [key]

/-- The target value produced by `_sample_conversion_decimal` clears to an
integer after multiplication by a suitable power of ten: it is exactly
representable as a terminating decimal. -/
theorem decimal_clear_aux (s : ℚ) (mantissa : ℤ) (digits : ℕ) :
    ∃ (k : ℕ) (z : ℤ),
      ((mantissa : ℚ) / 10 ^ digits * (factor_non_decimal s.den : ℚ) * s) * 10 ^ k
        = (z : ℚ) := by
  obtain ⟨len, t, hlt⟩ := factor_non_decimal_clears (Rat.den_pos s).ne'
  refine ⟨digits + len, mantissa * s.num * t, ?_⟩
  have h10 : ((10 : ℚ)) ^ digits ≠ 0 := by positivity
  have hclear : ((factor_non_decimal s.den : ℚ)) * 10 ^ len = (s.den : ℚ) * t := by
    exact_mod_cast hlt
  have hnum : s * (s.den : ℚ) = (s.num : ℚ) := Rat.mul_den_eq_num s
  push_cast
  rw [pow_add]
  calc (mantissa : ℚ) / 10 ^ digits * (factor_non_decimal s.den : ℚ) * s *
        (10 ^ digits * 10 ^ len)
      = ((mantissa : ℚ) / 10 ^ digits * 10 ^ digits) *
        ((factor_non_decimal s.den : ℚ) * 10 ^ len * s) := by ring
    _ = (mantissa : ℚ) * ((factor_non_decimal s.den : ℚ) * 10 ^ len * s) := by
        rw [div_mul_cancel₀ _ h10]
    _ = (mantissa : ℚ) * ((s.den : ℚ) * t * s) := by rw [hclear]
    _ = (mantissa : ℚ) * t * (s * (s.den : ℚ)) := by ring
    _ = (mantissa : ℚ) * t * (s.num : ℚ) := by rw [hnum]
    _ = (mantissa : ℚ) * (s.num : ℚ) * (t : ℚ) := by ring

theorem sample_conversion_decimal_terminating
    (base_scale target_scale : ℚ) (mantissa : ℤ) (digits : ℕ) :
    ∃ (k : ℕ) (z : ℤ),
      (sample_conversion_decimal base_scale target_scale mantissa digits).2 * 10 ^ k
        = (z : ℚ) :=
  decimal_clear_aux (base_scale / target_scale) mantissa digits

/-- Every prime factor of the denominator of the target value produced by
`_sample_conversion_decimal` is 2 or 5. -/
theorem sample_conversion_decimal_den_prime
    (base_scale target_scale : ℚ) (mantissa : ℤ) (digits : ℕ) (p : ℕ)
    (hp : Nat.Prime p)
    (hdvd : p ∣ (sample_conversion_decimal base_scale target_scale mantissa digits).2.den) :
    p = 2 ∨ p = 5 := by
  obtain ⟨k, z, hkz⟩ :=
    sample_conversion_decimal_terminating base_scale target_scale mantissa digits
  have h10k : ((10 : ℚ)) ^ k ≠ 0 := by positivity
  have htarget : (sample_conversion_decimal base_scale target_scale mantissa digits).2
      = Rat.divInt z ((10 : ℤ) ^ k) := by
    rw [Rat.divInt_eq_div, eq_div_iff (by exact_mod_cast h10k)]
    exact_mod_cast hkz
  have hden : ((sample_conversion_decimal base_scale target_scale mantissa digits).2.den : ℤ)
      ∣ (10 : ℤ) ^ k := by
    rw [htarget]
    exact Rat.den_dvd z ((10 : ℤ) ^ k)
  have hdenN : (sample_conversion_decimal base_scale target_scale mantissa digits).2.den
      ∣ 10 ^ k := by exact_mod_cast hden
  have hp10 : p ∣ 10 := hp.dvd_of_dvd_pow (hdvd.trans hdenN)
  have hp25 : p ∣ 2 * 5 := by norm_num at hp10 ⊢; exact hp10
  rcases (Nat.Prime.dvd_mul hp).mp hp25 with h | h
  · exact Or.inl ((Nat.prime_dvd_prime_iff_eq hp Nat.prime_two).mp h)
  · exact Or.inr ((Nat.prime_dvd_prime_iff_eq hp (by norm_num)).mp h)

/-! ### Claims -/

/-- C1: every Problem produced by a generator called with a fixed train/test
side has its partitioned value on that side — the base value accepted by the
retry loop of `_conversion_decimal`, the base value accepted by the retry
loop of `_conversion_fraction`, and the duration accepted by the retry loop
of `time` — and consequently the sets of partitioned values obtainable with
`is_train=True` and with `is_train=False` are disjoint, for each of the three
generators. -/
theorem claim_C1_partition_side (fuel : ℕ) :
    (∀ (side : Bool) (s : ℕ → ℚ) (v : ℚ),
      while_true_loop (conversion_decimal_guard side) s fuel = some v →
      is_train v = side) ∧
    (∀ (side allow_zero : Bool) (s : ℕ → FractionDraw) (d : FractionDraw),
      while_true_loop (conversion_fraction_guard side allow_zero) s fuel = some d →
      is_train d.base_value = side) ∧
    (∀ (side : Bool) (s : ℕ → ℕ) (d : ℕ),
      while_true_loop (time_guard side) s fuel = some d →
      is_train (d : ℚ) = side) ∧
    (∀ (s s' : ℕ → ℚ) (fuel' : ℕ) (v w : ℚ),
      while_true_loop (conversion_decimal_guard true) s fuel = some v →
      while_true_loop (conversion_decimal_guard false) s' fuel' = some w →
      v ≠ w) ∧
    (∀ (az az' : Bool) (s s' : ℕ → FractionDraw) (fuel' : ℕ) (d d' : FractionDraw),
      while_true_loop (conversion_fraction_guard true az) s fuel = some d →
      while_true_loop (conversion_fraction_guard false az') s' fuel' = some d' →
      d.base_value ≠ d'.base_value) ∧
    (∀ (s s' : ℕ → ℕ) (fuel' : ℕ) (d d' : ℕ),
      while_true_loop (time_guard true) s fuel = some d →
      while_true_loop (time_guard false) s' fuel' = some d' →
      d ≠ d') := by
  have hdec : ∀ (side : Bool) (s : ℕ → ℚ) (f : ℕ) (v : ℚ),
      while_true_loop (conversion_decimal_guard side) s f = some v →
      is_train v = side := by
    intro side s f v h
    have := while_true_loop_guard _ _ _ _ h
    simpa [conversion_decimal_guard] using this
  have hfrac : ∀ (side allow_zero : Bool) (s : ℕ → FractionDraw) (f : ℕ)
      (d : FractionDraw),
      while_true_loop (conversion_fraction_guard side allow_zero) s f = some d →
      is_train d.base_value = side := by
    intro side az s f d h
    have := while_true_loop_guard _ _ _ _ h
    simp [conversion_fraction_guard] at this
    exact this.1.1.1
  have htime : ∀ (side : Bool) (s : ℕ → ℕ) (f : ℕ) (d : ℕ),
      while_true_loop (time_guard side) s f = some d →
      is_train (d : ℚ) = side := by
    intro side s f d h
    have := while_true_loop_guard _ _ _ _ h
    simpa [time_guard] using this
  refine ⟨fun side s => hdec side s fuel, fun side az s => hfrac side az s fuel,
    fun side s => htime side s fuel, ?_, ?_, ?_⟩
  · intro s s' fuel' v w hv hw hvw
    have h1 := hdec true s fuel v hv
    have h2 := hdec false s' fuel' w hw
    rw [hvw, h2] at h1
    exact Bool.false_ne_true h1
  · intro az az' s s' fuel' d d' hd hd' hdd
    have h1 := hfrac true az s fuel d hd
    have h2 := hfrac false az' s' fuel' d' hd'
    rw [hdd, h2] at h1
    exact Bool.false_ne_true h1
  · intro s s' fuel' d d' hd hd' hdd
    have h1 := htime true s fuel d hd
    have h2 := htime false s' fuel' d' hd'
    rw [hdd, h2] at h1
    exact Bool.false_ne_true h1

/-- Witness for C1: on the side-`true` stream constantly drawing `1` the
decimal loop accepts `1` (which the partitioner puts on the train side), on
the side-`false` stream constantly drawing `1/2` it accepts `1/2` (test
side), and the two accepted values are distinct. -/
theorem claim_C1_partition_side_witness :
    is_train (1 : ℚ) = true ∧ is_train (1/2 : ℚ) = false ∧ (1 : ℚ) ≠ 1/2 := by
  refine ⟨(claim_C1_partition_side 1).1 true (fun _ => 1) 1 ?_,
    (claim_C1_partition_side 1).1 false (fun _ => 1/2) (1/2) ?_,
    (claim_C1_partition_side 1).2.2.2.1 (fun _ => 1) (fun _ => 1/2) 1 1 (1/2) ?_ ?_⟩ <;>
    norm_num [while_true_loop, conversion_decimal_guard, is_train]

/-- C2: the train/test partitioner is a pure deterministic function of the
value's exact canonical representation: two values with the same numerator
and denominator receive the same side, independently of any other state. -/
theorem claim_C2_partition_deterministic (v w : ℚ)
    (hnum : v.num = w.num) (hden : v.den = w.den) :
    is_train v = is_train w := by
  rw [is_train, is_train, hnum, hden]

/-- Witness for C2: the side of `1/2` computed twice is the same. -/
theorem claim_C2_partition_deterministic_witness :
    is_train (1/2 : ℚ) = is_train (1/2 : ℚ) :=
  claim_C2_partition_deterministic (1/2) (1/2) rfl rfl

/-- C3: for two distinct units drawn from one dimension of `DIMENSIONS`, with
ratio `r = scale(u1)/scale(u2)`, the target value produced by
`_sample_conversion_decimal` equals the (transformed) base value times `r`
exactly. -/
theorem claim_C3_conversion_exact
    (dim : List (Unit × ℚ)) (hdim : dim ∈ DIMENSIONS)
    (u1 u2 : Unit × ℚ) (h1 : u1 ∈ dim) (h2 : u2 ∈ dim) (hne : u1 ≠ u2)
    (mantissa : ℤ) (digits : ℕ) :
    (sample_conversion_decimal u1.2 u2.2 mantissa digits).2
      = (sample_conversion_decimal u1.2 u2.2 mantissa digits).1 * (u1.2 / u2.2) :=
  rfl

/-- Witness for C3, the spec's example scenario: kilometer (scale 1000) to
meter (scale 1), base value 5 — the target value is exactly `5 * 1000`, that
is `5000`. -/
theorem claim_C3_conversion_exact_witness :
    (sample_conversion_decimal 1000 1 5 0).2
      = (sample_conversion_decimal 1000 1 5 0).1 * ((1000 : ℚ) / 1) ∧
    (sample_conversion_decimal 1000 1 5 0).2 = 5000 := by
  constructor
  · exact claim_C3_conversion_exact LENGTH (by simp [DIMENSIONS])
      (⟨"kilometer", some "km"⟩, 1000) (⟨"meter", some "m"⟩, 1)
      (by simp [LENGTH]) (by simp [LENGTH]) (by simp) 5 0
  · norm_num [sample_conversion_decimal, non_integer_decimal, factor_non_decimal,
      Nat.primeFactorsList_one]

/-- C4: for every positive `n`, `_factor_non_decimal n` is the largest
divisor of `n` coprime to 2 and to 5 (every divisor of `n` coprime to 2 and 5
divides it, hence is at most it); consequently the target value
`base_value * scale` produced by `_sample_conversion_decimal` — whose sampled
base value was first multiplied by `_factor_non_decimal(denom(scale))` — has
a denominator whose only prime factors are 2 and 5, i.e. it is exactly
representable as a terminating decimal. -/
theorem claim_C4_factor_non_decimal (n : ℕ) (hn : 0 < n) :
    (factor_non_decimal n ∣ n ∧
     Nat.Coprime (factor_non_decimal n) 2 ∧
     Nat.Coprime (factor_non_decimal n) 5 ∧
     ∀ d, d ∣ n → Nat.Coprime d 2 → Nat.Coprime d 5 →
       d ∣ factor_non_decimal n ∧ d ≤ factor_non_decimal n) ∧
    ∀ (base_scale target_scale : ℚ) (mantissa : ℤ) (digits : ℕ) (p : ℕ),
      Nat.Prime p →
      p ∣ (sample_conversion_decimal base_scale target_scale mantissa digits).2.den →
      p = 2 ∨ p = 5 := by
  refine ⟨⟨factor_non_decimal_dvd hn.ne', (factor_non_decimal_coprime n).1,
    (factor_non_decimal_coprime n).2, ?_⟩, ?_⟩
  · intro d hdn h2 h5
    have hdvd := dvd_factor_non_decimal hn.ne' hdn h2 h5
    exact ⟨hdvd, Nat.le_of_dvd (factor_non_decimal_pos hn.ne') hdvd⟩
  · intro base_scale target_scale mantissa digits p hp hdvd
    exact sample_conversion_decimal_den_prime base_scale target_scale mantissa
      digits p hp hdvd

/-- Witness for C4 at `n = 3` (kept whole: coprime to 10) and at the
conversion of scales 1 to 2 (scale `1/2`, target `1/2`, denominator 2). -/
theorem claim_C4_factor_non_decimal_witness :
    factor_non_decimal 3 ∣ 3 ∧ 3 ∣ factor_non_decimal 3 ∧
    (2 = 2 ∨ 2 = 5) := by
  have h3 : Nat.primeFactorsList 3 = [3] := Nat.primeFactorsList_prime (by norm_num)
  have hden : (sample_conversion_decimal 1 2 1 0).2.den = 2 := by
    norm_num [sample_conversion_decimal, non_integer_decimal, factor_non_decimal,
      Nat.primeFactorsList_two]
  refine ⟨(claim_C4_factor_non_decimal 3 (by norm_num)).1.1,
    ((claim_C4_factor_non_decimal 3 (by norm_num)).1.2.2.2 3 dvd_rfl
      (by norm_num) (by norm_num)).1,
    (claim_C4_factor_non_decimal 3 (by norm_num)).2 1 2 1 0 2 Nat.prime_two ?_⟩
  rw [hden]

/-- C5: every Problem returned by `_conversion_fraction` — i.e. every draw
accepted by its retry loop — has an answer that is an exact integer
(denominator 1) of absolute value at most 100000, and whenever the
zero-permission draw is false the answer is nonzero. -/
theorem claim_C5_fraction_integer_answer
    (side allow_zero : Bool) (fuel : ℕ) (s : ℕ → FractionDraw) (draw : FractionDraw)
    (h : while_true_loop (conversion_fraction_guard side allow_zero) s fuel
      = some draw) :
    (fraction_answer draw).den = 1 ∧
    ((fraction_answer draw).num : ℚ) = fraction_answer draw ∧
    |fraction_answer draw| ≤ 100000 ∧
    (allow_zero = false → fraction_answer draw ≠ 0) := by
  have hg := while_true_loop_guard _ _ _ _ h
  simp [conversion_fraction_guard] at hg
  obtain ⟨⟨⟨hside, habs⟩, hden⟩, hzero⟩ := hg
  refine ⟨hden, (Rat.den_eq_one_iff _).mp hden, habs, ?_⟩
  intro haz
  rcases hzero with hz | hz
  · rw [haz] at hz; exact absurd hz (by simp)
  · exact hz

/-- Witness for C5: the loop run on the constant stream drawing scales 1000
and 1 with base value `1/2` (side test, zero not allowed) accepts immediately
and its answer `500` is an integer, bounded, and nonzero. -/
theorem claim_C5_fraction_integer_answer_witness :
    (fraction_answer ⟨1000, 1, 1/2⟩).den = 1 ∧
    |fraction_answer ⟨1000, 1, 1/2⟩| ≤ 100000 ∧
    (false = false → fraction_answer ⟨1000, 1, 1/2⟩ ≠ 0) := by
  have h := claim_C5_fraction_integer_answer false false 1
    (fun _ => ⟨1000, 1, 1/2⟩) ⟨1000, 1, 1/2⟩ (by
      norm_num [while_true_loop, conversion_fraction_guard, is_train,
        fraction_answer])
  exact ⟨h.1, h.2.2.1, h.2.2.2⟩

/-- C6: in every question variant of `time`, the underlying minute quantities
satisfy `start + duration = end` exactly (no 24-hour wrap in the arithmetic
— the duration stays recoverable as `end - start`), and the rendered answers
are produced by `format_24hr`, the only place the hours are reduced modulo
24. -/
theorem claim_C6_time_closure
    (start_minutes duration_minutes : ℕ) (which_question : Fin 4)
    (hs1 : 1 ≤ start_minutes) (hs2 : start_minutes ≤ 24 * 60 - 1)
    (hd1 : 1 ≤ duration_minutes) (hd2 : duration_minutes ≤ 12 * 60 - 1) :
    (time start_minutes duration_minutes which_question).end_minutes
      = (time start_minutes duration_minutes which_question).start_minutes
        + (time start_minutes duration_minutes which_question).duration_minutes ∧
    (time start_minutes duration_minutes which_question).start_minutes
      = start_minutes ∧
    (time start_minutes duration_minutes which_question).duration_minutes
      = duration_minutes ∧
    (time start_minutes duration_minutes which_question).duration_minutes
      = (time start_minutes duration_minutes which_question).end_minutes
        - (time start_minutes duration_minutes which_question).start_minutes ∧
    (which_question.val = 0 →
      (time start_minutes duration_minutes which_question).answer
        = format_24hr start_minutes) ∧
    (which_question.val = 1 →
      (time start_minutes duration_minutes which_question).answer
        = format_24hr (start_minutes + duration_minutes)) ∧
    (2 ≤ which_question.val →
      (time start_minutes duration_minutes which_question).answer
        = toString duration_minutes) := by
  fin_cases which_question <;>
    simp [time] <;> omega

/-- Witness for C6, the spec's example scenario: start 23:50 (1430 minutes),
duration 20 minutes, asking for the end: the unwrapped end is 1450 minutes
(no wrap in the arithmetic), the rendered answer wraps to "00:10", and the
duration is recoverable from the unwrapped minutes. -/
theorem claim_C6_time_closure_witness :
    (time 1430 20 1).end_minutes = 1450 ∧
    (time 1430 20 1).answer = "00:10" ∧
    format_24hr 1430 = "23:50" ∧
    (time 1430 20 1).end_minutes - (time 1430 20 1).start_minutes = 20 := by
  have h := claim_C6_time_closure 1430 20 1 (by norm_num) (by norm_num)
    (by norm_num) (by norm_num)
  refine ⟨?_, ?_, rfl, ?_⟩
  · rw [h.1, h.2.1, h.2.2.1]
  · rw [h.2.2.2.2.2.1 rfl]; rfl
  · rw [h.2.1, h.1, h.2.1, h.2.2.1]

/-- C7 counterexample: the claim that every rejection-sampling retry loop of
the generators has an explicit maximum retry count after which it terminates
is false — the loops are plain `while True:` loops.  Formalizing "a maximum
retry count N exists" as "on every draw stream the loop has accepted within N
draws": no such N exists, exhibited by the duration loop of `time` asked for
the test side while every draw is the train-side duration 1. -/
theorem claim_C7_counterexample :
    ¬ ∃ N : ℕ, ∀ s : ℕ → ℕ, ∃ n : ℕ, n ≤ N ∧
      (while_true_loop (time_guard false) s n).isSome = true := by
  rintro ⟨N, hN⟩
  obtain ⟨n, -, hsome⟩ := hN fun _ => 1
  rw [while_true_loop_none (time_guard false) n (fun _ => 1) ?_] at hsome
  · simp at hsome
  · intro k
    norm_num [time_guard, is_train]

/-- C7 amended: the three retry loops (side matching in `_conversion_decimal`,
integrality/magnitude/zero in `_conversion_fraction`, side matching in
`time`) are unbounded `while True:` loops with no maximum retry count: a loop
only ever exits by returning a draw its guard accepts, and on a stream none
of whose draws is accepted it is, at every observation depth, still running
(no failure is ever produced). -/
theorem claim_C7_amended_unbounded :
    (∀ (side : Bool) (s : ℕ → ℚ) (fuel : ℕ) (v : ℚ),
      while_true_loop (conversion_decimal_guard side) s fuel = some v →
      conversion_decimal_guard side v = true) ∧
    (∀ (side allow_zero : Bool) (s : ℕ → FractionDraw) (fuel : ℕ) (d : FractionDraw),
      while_true_loop (conversion_fraction_guard side allow_zero) s fuel = some d →
      conversion_fraction_guard side allow_zero d = true) ∧
    (∀ (side : Bool) (s : ℕ → ℕ) (fuel : ℕ) (d : ℕ),
      while_true_loop (time_guard side) s fuel = some d →
      time_guard side d = true) ∧
    (∀ (side : Bool) (s : ℕ → ℕ) (fuel : ℕ),
      (∀ k, time_guard side (s k) = false) →
      while_true_loop (time_guard side) s fuel = none) := by
  exact ⟨fun side s fuel v h => while_true_loop_guard _ _ _ _ h,
    fun side az s fuel d h => while_true_loop_guard _ _ _ _ h,
    fun side s fuel d h => while_true_loop_guard _ _ _ _ h,
    fun side s fuel h => while_true_loop_none _ _ _ h⟩

/-- Witness for the amended C7: after five rejected draws of the constant
train-side stream the test-side duration loop is still running. -/
theorem claim_C7_amended_unbounded_witness :
    while_true_loop (time_guard false) (fun _ => 1) 5 = none :=
  claim_C7_amended_unbounded.2.2.2 false (fun _ => 1) 5 (by
    intro k
    norm_num [time_guard, is_train])

/-- C8 counterexample: `which_question = random.randint(0, 3)` draws
uniformly from the four values {0, 1, 2, 3}, and the `else` branch (solve for
the duration) captures both 2 and 3 — selection of every branch with
probability exactly 1/3 of the uniform draw would require each branch to
capture a third of the four draws, which fails: the duration branch captures
2 of 4 (probability 1/2), the other two 1 of 4 each. -/
theorem claim_C8_counterexample :
    ¬ ∀ b : Fin 3, 3 * ((Finset.univ : Finset (Fin 4)).filter
      fun w => which_question_branch w = b).card = 4 := by
  decide

/-- C8 amended: exactly three question forms exist and every draw of
`random.randint(0, 3)` selects one of them (the branch map is onto), but the
selection is not uniform: under the uniform draw on the four values
{0, 1, 2, 3}, the start and end forms are selected with probability 1/4 each
(one draw out of four) and the duration form with probability 1/2 (two draws
out of four). -/
theorem claim_C8_amended_branch_counts :
    Function.Surjective which_question_branch ∧
    ((Finset.univ : Finset (Fin 4)).filter
      fun w => which_question_branch w = 0).card = 1 ∧
    ((Finset.univ : Finset (Fin 4)).filter
      fun w => which_question_branch w = 1).card = 1 ∧
    ((Finset.univ : Finset (Fin 4)).filter
      fun w => which_question_branch w = 2).card = 2 ∧
    (Finset.univ : Finset (Fin 4)).card = 4 := by
  refine ⟨?_, by decide, by decide, by decide, by decide⟩
  decide

/-- C9 counterexample: the claimed rendering policy — base values with
denominator at most 20 are always spelled out in words — is false: with
denominator 2 and the coin drawn true, line 229 renders digits. -/
theorem claim_C9_counterexample :
    ¬ ∀ (den : ℕ) (coin : Bool), den ≤ 20 →
      fraction_base_style den coin = BaseValueStyle.words := by
  intro h
  have := h 2 true (by norm_num)
  simp [fraction_base_style] at this

/-- C9 amended: the rendering policy of `_conversion_fraction` (lines
229-232) is the reverse split: if the denominator exceeds 20 the base value
is always rendered as digits (a fraction such as `2/3`), and if it is at most
20 a 50/50 coin chooses between digits and spelled-out words. -/
theorem claim_C9_amended_style (den : ℕ) (coin : Bool) :
    (20 < den → fraction_base_style den coin = BaseValueStyle.digits) ∧
    (den ≤ 20 → fraction_base_style den coin
      = if coin then BaseValueStyle.digits else BaseValueStyle.words) := by
  constructor
  · intro h
    simp [fraction_base_style, h]
  · intro h
    rcases coin with _ | _ <;> simp [fraction_base_style, Nat.not_lt.mpr h]

/-- Witness for the amended C9: denominator 21 with coin false renders
digits; denominator 2 with coin false renders words. -/
theorem claim_C9_amended_style_witness :
    fraction_base_style 21 false = BaseValueStyle.digits ∧
    fraction_base_style 2 false = BaseValueStyle.words :=
  ⟨(claim_C9_amended_style 21 false).1 (by norm_num),
    ((claim_C9_amended_style 2 false).2 (by norm_num)).trans (by simp)⟩

/-- C10: a `conversion` call with `is_extrapolation=True` always produces the
decimal form (whose entropy is the extrapolation budget 9 instead of 7); the
fraction form is reachable only with `is_extrapolation=False`; and the
extrapolation module set exposed by `test_extra` contains only the conversion
module, never `time`. -/
theorem claim_C10_extrapolation_decimal :
    (∀ coin : Bool, conversion true coin = ConversionForm.decimal) ∧
    sample_conversion_entropy true = 9 ∧
    sample_conversion_entropy false = 7 ∧
    (∀ is_extrapolation coin : Bool,
      conversion is_extrapolation coin = ConversionForm.fraction →
      is_extrapolation = false) ∧
    test_extra = ["conversion"] ∧
    "time" ∉ test_extra ∧ "conversion" ∈ test_extra := by
  refine ⟨fun coin => rfl, rfl, rfl, ?_, rfl, by decide, by decide⟩
  intro e coin h
  rcases e with _ | _
  · rfl
  · exact absurd h (by simp [conversion])

/-- Witness for C10: the fraction form does occur, and only at
`is_extrapolation = false`. -/
theorem claim_C10_extrapolation_decimal_witness :
    conversion false false = ConversionForm.fraction ∧ false = false :=
  ⟨rfl, claim_C10_extrapolation_decimal.2.2.2.1 false false rfl⟩

end measurement
